import Mathlib

/-!
Shallow embedding of the percy parsing library (src/src/parser.c) and proofs
about its string-to-number conversion routines.

Modelling conventions:
* A C string pointer is a `List Char` (the suffix of the input starting at the
  pointer); the `char **endptr` output is the returned suffix.  Cursors only
  move forward, so a position is exactly a suffix of the input.
* C `double` values are modelled as exact rationals (`ℚ`).  All inputs the
  proofs below evaluate are exactly representable, and the structural claims
  do not depend on rounding.
* Fixed-width integers are `ℕ` with the LP64 limits `2^64 - 1` made explicit.
* The libc primitives `strtod` / `strtoul` / `strtoumax` are not part of this
  repository; they are modelled from the spec (section 6, "Primitive
  conversion collaborator") with standard C semantics.
-/

namespace Percy

/-- Error enumeration `PercyParserError` from include/parser.h. -/
inductive ParseErr where
  | PARSE_SUCCESS
  | PARSE_EERR
  | PARSE_ERANGE
  | PARSE_EMIN
  | PARSE_EMAX
  | PARSE_EEND
  | PARSE_EBASE
  | PARSE_EFORM
deriving DecidableEq, Repr

export ParseErr (PARSE_SUCCESS PARSE_EERR PARSE_ERANGE PARSE_EMIN PARSE_EMAX PARSE_EEND PARSE_EBASE PARSE_EFORM)

/-- Enumeration `PercyComplexPart` from include/parser.h. -/
inductive ComplexPt where
  | COMPLEX_NONE
  | COMPLEX_REAL
  | COMPLEX_IMAGINARY
deriving DecidableEq, Repr

export ComplexPt (COMPLEX_NONE COMPLEX_REAL COMPLEX_IMAGINARY)

/-- C `isspace` in the default locale (space, tab, newline, vertical tab, form feed, carriage return). -/
def isspace (c : Char) : Bool :=
  c = ' ' || c = '\t' || c = '\n' || c = '\x0b' || c = '\x0c' || c = '\r'

/-- C `toupper` in the default locale: only ASCII lowercase letters are mapped. -/
def toupper (c : Char) : Char := c.toUpper

/-- Advance past leading whitespace (the `while (isspace(**endptr)) ++(*endptr);` idiom). -/
def skipSpace : List Char → List Char
  | [] => []
  | c :: rest => if isspace c then skipSpace rest else c :: rest

/-- Maximum finite double, exactly: `(2^53 - 1) * 2^971`.  (`DBL_MAX` from float.h.) -/
def DBL_MAX : ℚ := ((2 ^ 53 - 1) * 2 ^ 971 : ℕ)

/-- `SIZE_MAX` on an LP64 platform, as the rational the C comparison `x > SIZE_MAX` uses.
(The implicit C conversion of `SIZE_MAX` to `double` rounds to `2^64`; the difference is
immaterial to the claims below, which never sit between `2^64 - 1` and `2^64`.) -/
def SIZE_MAX : ℚ := ((2 ^ 64 - 1 : ℕ) : ℚ)

/-- `ULONG_MAX` on an LP64 platform. -/
def ULONG_MAX : ℕ := 2 ^ 64 - 1

/-- `UINTMAX_MAX` on an LP64 platform. -/
def UINTMAX_MAX : ℕ := 2 ^ 64 - 1

/-- Symbol denoting the imaginary unit (case-insensitive), from parser.c. -/
def IMAGINARY_UNIT : Char := 'i'

/-- Static function `parseSign` of parser.c: skip whitespace, then consume at most
one `+` (returning 1) or `-` (returning -1); 0 when no sign is present. -/
def parseSign (s : List Char) : Int × List Char :=
  match skipSpace s with
  | '+' :: rest => (1, rest)
  | '-' :: rest => (-1, rest)
  | r => (0, r)

/-- Static function `parseImaginaryUnit` of parser.c: skip whitespace, then consume a
case-insensitive `i`, tagging the term `COMPLEX_IMAGINARY`; otherwise `COMPLEX_REAL`
without consuming. -/
def parseImaginaryUnit (s : List Char) : ComplexPt × List Char :=
  match skipSpace s with
  | [] => (COMPLEX_REAL, ([] : List Char))
  | c :: rest =>
    if toupper c = toupper IMAGINARY_UNIT then (COMPLEX_IMAGINARY, rest)
    else (COMPLEX_REAL, c :: rest)

/-- Decimal digit test, as C `isdigit`. -/
def isdigit (c : Char) : Bool := '0' ≤ c && c ≤ '9'

/-- Value of a decimal digit character. -/
def digitVal (c : Char) : ℕ := c.toNat - '0'.toNat

/-- Split a maximal run of decimal digits off the front of the input. -/
def takeDigits : List Char → List Char × List Char
  | [] => (([] : List Char), ([] : List Char))
  | c :: rest =>
    if isdigit c then (c :: (takeDigits rest).1, (takeDigits rest).2)
    else (([] : List Char), c :: rest)

/-- Natural number denoted by a run of decimal digits. -/
def natOfDigits (ds : List Char) : ℕ := ds.foldl (fun a c => 10 * a + digitVal c) 0

/-- Fractional value denoted by the digits after a decimal point. -/
def fracOfDigits (ds : List Char) : ℚ := (natOfDigits ds : ℚ) / ((10 ^ ds.length : ℕ) : ℚ)

/-- Exact rational `10 ^ m` for an integer exponent (the C `pow(10.0, m)` scaling;
exact for every magnitude in the memory-unit vocabulary). -/
def pow10 (m : ℤ) : ℚ :=
  if 0 ≤ m then ((10 ^ m.toNat : ℕ) : ℚ) else (((10 ^ (-m).toNat : ℕ) : ℚ))⁻¹

/-- Scan an optional exponent part `e[+-]digits` / `E[+-]digits`.  When no digit
follows the exponent marker the marker is not consumed (C `strtod` longest-match). -/
def scanExp (s : List Char) : ℤ × List Char :=
  match s with
  | [] => (0, s)
  | c :: rest =>
    if c = 'e' || c = 'E' then
      let sr : Int × List Char :=
        match rest with
        | '+' :: r => (1, r)
        | '-' :: r => (-1, r)
        | _ => (1, rest)
      if (takeDigits sr.2).1 = [] then (0, s)
      else (sr.1 * (natOfDigits (takeDigits sr.2).1 : ℤ), (takeDigits sr.2).2)
    else (0, s)

/-- Modelled from the spec: the primitive string-to-double conversion (libc `strtod`,
an external collaborator per spec section 6).  Skips leading whitespace, consumes an
optional sign and then `digits[.digits][exponent]`, returning the exact value, the
first unconsumed position, and an overflow flag modelling `errno == ERANGE` (magnitude
above `DBL_MAX`).  On failure to parse any digits the cursor equals the start and the
value is 0.  Hexadecimal floats, infinities, NaNs and gradual underflow are not
modelled; no claim exercises them. -/
def strtod (s0 : List Char) : ℚ × List Char × Bool :=
  let s1 := skipSpace s0
  let sgn : ℚ :=
    match s1 with
    | '-' :: _ => -1
    | _ => 1
  let s2 : List Char :=
    match s1 with
    | '-' :: r => r
    | '+' :: r => r
    | _ => s1
  let ip := takeDigits s2
  let fp : List Char × List Char :=
    match ip.2 with
    | '.' :: r => takeDigits r
    | _ => (([] : List Char), ip.2)
  if ip.1 = [] ∧ fp.1 = [] then (0, s0, false)
  else
    let ep := scanExp fp.2
    let v : ℚ := sgn * ((natOfDigits ip.1 : ℚ) + fracOfDigits fp.1) * pow10 ep.1
    (v, ep.2, decide (DBL_MAX < |v|))

/-- Function `stringToDouble` of parser.c: wraps `strtod`, turning its outcomes into
the `ParseErr` ladder (no conversion, overflow, caller bounds, trailing data). -/
def stringToDouble (nptr : List Char) (mn mx : ℚ) : ℚ × List Char × ParseErr :=
  if (strtod nptr).2.1 = nptr then ((strtod nptr).1, (strtod nptr).2.1, PARSE_EERR)
  else if (strtod nptr).2.2 = true then ((strtod nptr).1, (strtod nptr).2.1, PARSE_ERANGE)
  else if (strtod nptr).1 < mn then ((strtod nptr).1, (strtod nptr).2.1, PARSE_EMIN)
  else if (strtod nptr).1 > mx then ((strtod nptr).1, (strtod nptr).2.1, PARSE_EMAX)
  else if (strtod nptr).2.1 = [] then ((strtod nptr).1, (strtod nptr).2.1, PARSE_SUCCESS)
  else ((strtod nptr).1, (strtod nptr).2.1, PARSE_EEND)

/-- Result of `stringToComplexPart`: the complex accumulator `*z`, the cursor
`*endptr`, the kind `*type`, and the returned error code.  On paths where the C
function returns before writing `*type` (caller's variable left stale) the model
reports `COMPLEX_NONE`. -/
structure PartResult where
  z : ℚ × ℚ
  endp : List Char
  ty : ComplexPt
  err : ParseErr
deriving DecidableEq, Repr

/-- Cursor state of `stringToComplexPart` after its leading-whitespace skip and the
manual first-sign capture (parser.c line 159). -/
def partSign (nptr : List Char) : Int × List Char := parseSign (skipSpace nptr)

/-- Cursor state after the attempt to capture a second sign (parser.c line 168). -/
def partSign2 (nptr : List Char) : Int × List Char := parseSign (partSign nptr).2

/-- Result of the inner `stringToDouble(&x, *endptr, -(DBL_MAX), DBL_MAX, endptr)`
call of `stringToComplexPart` (parser.c line 171). -/
def partDouble (nptr : List Char) : ℚ × List Char × ParseErr :=
  stringToDouble (partSign2 nptr).2 (-DBL_MAX) DBL_MAX

/-- Head-of-input test `toupper(**endptr) == toupper(IMAGINARY_UNIT)` (parser.c line 175);
`**endptr` is the terminating NUL on an empty remainder, which never matches. -/
def headIsImagUnit : List Char → Bool
  | [] => false
  | c :: _ => toupper c = toupper IMAGINARY_UNIT

/-- The signed coefficient of the term: the parsed double (or the implicit 1.0 of a bare
imaginary unit) multiplied by the manually captured sign (parser.c lines 179, 186). -/
def partCoeff (nptr : List Char) : ℚ :=
  ((if (partSign nptr).1 = 0 then 1 else (partSign nptr).1 : Int) : ℚ) *
    (if (partDouble nptr).2.2 = PARSE_EERR then 1 else (partDouble nptr).1)

/-- The `*type = parseImaginaryUnit(*endptr, endptr)` step (parser.c line 188). -/
def partKind (nptr : List Char) : ComplexPt × List Char :=
  parseImaginaryUnit (partDouble nptr).2.1

/-- Function `stringToComplexPart` of parser.c: parse one signed real or imaginary
term into one lane of the complex accumulator `z`, leaving the other lane untouched.
Two consecutive signs are `PARSE_EFORM`; a failed double conversion not followed by
the imaginary unit is `PARSE_EFORM`; other double-conversion failures propagate;
an out-of-lane-bounds coefficient is `PARSE_ERANGE` (checked before the write). -/
def stringToComplexPart (z : ℚ × ℚ) (nptr : List Char) (mn mx : ℚ × ℚ) : PartResult :=
  if (partSign2 nptr).1 ≠ 0 then
    ⟨z, (partSign2 nptr).2, COMPLEX_NONE, PARSE_EFORM⟩
  else if (partDouble nptr).2.2 = PARSE_EERR ∧ headIsImagUnit (partDouble nptr).2.1 = false then
    ⟨z, (partDouble nptr).2.1, COMPLEX_NONE, PARSE_EFORM⟩
  else if (partDouble nptr).2.2 ≠ PARSE_EERR ∧ (partDouble nptr).2.2 ≠ PARSE_SUCCESS ∧
      (partDouble nptr).2.2 ≠ PARSE_EEND then
    ⟨z, (partDouble nptr).2.1, COMPLEX_NONE, (partDouble nptr).2.2⟩
  else
    match partKind nptr with
    | (COMPLEX_REAL, e4) =>
      if partCoeff nptr < mn.1 ∨ partCoeff nptr > mx.1 then
        ⟨z, e4, COMPLEX_REAL, PARSE_ERANGE⟩
      else
        ⟨(partCoeff nptr, z.2), e4, COMPLEX_REAL, if e4 = [] then PARSE_SUCCESS else PARSE_EEND⟩
    | (COMPLEX_IMAGINARY, e4) =>
      if partCoeff nptr < mn.2 ∨ partCoeff nptr > mx.2 then
        ⟨z, e4, COMPLEX_IMAGINARY, PARSE_ERANGE⟩
      else
        ⟨(z.1, partCoeff nptr), e4, COMPLEX_IMAGINARY, if e4 = [] then PARSE_SUCCESS else PARSE_EEND⟩
    | (COMPLEX_NONE, e4) => ⟨z, e4, COMPLEX_NONE, PARSE_EERR⟩

/-- Result of `stringToComplex`: `*z`, `*endptr`, and the error code. -/
structure ComplexResult where
  z : ℚ × ℚ
  endp : List Char
  err : ParseErr
deriving DecidableEq, Repr

/-- The first complex part parsed by `stringToComplex` into its zero-initialised
accumulator (parser.c lines 239-245). -/
def cFirst (nptr : List Char) (mn mx : ℚ × ℚ) : PartResult :=
  stringToComplexPart (0, 0) (skipSpace nptr) mn mx

/-- The inter-term operator sign (parser.c line 260).  Its cursor starts at the
checkpoint recorded just after the first part. -/
def cOper (nptr : List Char) (mn mx : ℚ × ℚ) : Int × List Char :=
  parseSign (cFirst nptr mn mx).endp

/-- The second complex part (parser.c line 269), parsed into the scratch accumulator
`secondZPart`.  The C variable is uninitialised; only the lane the part writes is
ever read back, so the model initialises it to `(0, 0)`. -/
def cSecond (nptr : List Char) (mn mx : ℚ × ℚ) : PartResult :=
  stringToComplexPart (0, 0) (cOper nptr mn mx).2 mn mx

/-- Function `stringToComplex` of parser.c: parse `a + bi` (or `bi + a`).  After a
first part with trailing data, its end is the rollback checkpoint: a missing
operator, a failed second part, or a duplicate kind resets `*endptr` to the
checkpoint and reports `PARSE_EEND`, keeping only the first part's value. -/
def stringToComplex (nptr : List Char) (mn mx : ℚ × ℚ) : ComplexResult :=
  if (cFirst nptr mn mx).err = PARSE_SUCCESS then
    ⟨(cFirst nptr mn mx).z, (cFirst nptr mn mx).endp, PARSE_SUCCESS⟩
  else if (cFirst nptr mn mx).err ≠ PARSE_EEND then
    ⟨(cFirst nptr mn mx).z, (cFirst nptr mn mx).endp, (cFirst nptr mn mx).err⟩
  else if (cOper nptr mn mx).1 = 0 then
    ⟨(cFirst nptr mn mx).z, (cFirst nptr mn mx).endp, PARSE_EEND⟩
  else if (cSecond nptr mn mx).err ≠ PARSE_SUCCESS ∧ (cSecond nptr mn mx).err ≠ PARSE_EEND then
    ⟨(cFirst nptr mn mx).z, (cFirst nptr mn mx).endp, PARSE_EEND⟩
  else if (cFirst nptr mn mx).ty = (cSecond nptr mn mx).ty then
    ⟨(cFirst nptr mn mx).z, (cFirst nptr mn mx).endp, PARSE_EEND⟩
  else
    match (cSecond nptr mn mx).ty with
    | COMPLEX_REAL =>
      if (cSecond nptr mn mx).endp = [] then
        ⟨(((cOper nptr mn mx).1 : ℚ) * (cSecond nptr mn mx).z.1, (cFirst nptr mn mx).z.2),
          (cSecond nptr mn mx).endp, PARSE_SUCCESS⟩
      else
        ⟨(((cOper nptr mn mx).1 : ℚ) * (cSecond nptr mn mx).z.1, (cFirst nptr mn mx).z.2),
          (cSecond nptr mn mx).endp, PARSE_EEND⟩
    | COMPLEX_IMAGINARY =>
      if (cSecond nptr mn mx).endp = [] then
        ⟨((cFirst nptr mn mx).z.1, ((cOper nptr mn mx).1 : ℚ) * (cSecond nptr mn mx).z.2),
          (cSecond nptr mn mx).endp, PARSE_SUCCESS⟩
      else
        ⟨((cFirst nptr mn mx).z.1, ((cOper nptr mn mx).1 : ℚ) * (cSecond nptr mn mx).z.2),
          (cSecond nptr mn mx).endp, PARSE_EEND⟩
    | COMPLEX_NONE =>
      ⟨(cFirst nptr mn mx).z, (cFirst nptr mn mx).endp, PARSE_EEND⟩

/-- Constant `CMPLX_MIN` of parser.c: `-(DBL_MAX) - DBL_MAX * I`, as a lane pair. -/
def CMPLX_MIN : ℚ × ℚ := (-DBL_MAX, -DBL_MAX)

/-- Constant `CMPLX_MAX` of parser.c: `DBL_MAX + DBL_MAX * I`, as a lane pair. -/
def CMPLX_MAX : ℚ × ℚ := (DBL_MAX, DBL_MAX)

/-- Memory-unit letters `BYTE_PREFIXES` of `parseMemoryUnit`. -/
def bytePrefixes : List Char := ['k', 'M', 'G', 'T', 'P', 'E', 'Z', 'Y']

/-- The mandatory byte-unit letter `BYTE_UNIT` of `parseMemoryUnit`. -/
def BYTE_UNIT : Char := 'B'

/-- Static function `parseMemoryUnit` of parser.c: skip whitespace, case-insensitively
match at most one magnitude letter (`k`=3, `M`=6, ..., `Y`=24 — the `(i+1)*3 > INT_MAX`
guard in the source is dead code and not modelled), then require a case-insensitive
`B`.  A missing `B` yields -1 with the cursor left after any consumed letter (the
caller restores it). -/
def parseMemoryUnit (str : List Char) : ℤ × List Char :=
  let pr : ℤ × List Char :=
    match skipSpace str with
    | [] => (0, skipSpace str)
    | c :: rest =>
      match bytePrefixes.findIdx? (fun p => toupper c = toupper p) with
      | some i => (((i : ℤ) + 1) * 3, rest)
      | none => (0, c :: rest)
  match pr.2 with
  | [] => (-1, pr.2)
  | c :: rest => if toupper c = toupper BYTE_UNIT then (pr.1, rest) else (-1, c :: rest)

/-- Result of `stringToMemory`: `*bytes`, `*endptr`, and the error code.  `bytes0`
threads the caller's variable through paths where the C function does not write it. -/
structure MemResult where
  bytes : ℕ
  endp : List Char
  err : ParseErr
deriving DecidableEq, Repr

/-- The inner `stringToDouble(&x, *endptr, 0.0, DBL_MAX, endptr)` call of
`stringToMemory` (parser.c line 317). -/
def memDouble (nptr : List Char) : ℚ × List Char × ParseErr :=
  stringToDouble (skipSpace nptr) 0 DBL_MAX

/-- The `parseMemoryUnit` attempt on the remainder after the double (parser.c line 326). -/
def memUnit (nptr : List Char) : ℤ × List Char :=
  parseMemoryUnit (memDouble nptr).2.1

/-- The selected magnitude and cursor (parser.c lines 319-333): the caller's default
magnitude when the double consumed everything, otherwise the recognised unit suffix,
falling back to the default — with the cursor restored to just after the double —
when the suffix is not recognised. -/
def memScale (nptr : List Char) (magnitude : ℤ) : ℤ × List Char :=
  if (memDouble nptr).2.2 = PARSE_SUCCESS then (magnitude, (memDouble nptr).2.1)
  else if (memUnit nptr).1 < 0 then (magnitude, (memDouble nptr).2.1)
  else memUnit nptr

/-- Function `stringToMemory` of parser.c: parse a non-negative double with optional
memory-unit suffix into a byte count.  The scaled value is range-checked against
`SIZE_MAX`, truncated (`(size_t) x`; the value is non-negative here, so `Rat.floor`
is the C truncation toward zero), then checked against the caller bounds. -/
def stringToMemory (bytes0 : ℕ) (nptr : List Char) (mn mx : ℕ) (magnitude : ℤ) : MemResult :=
  if (memDouble nptr).2.2 = PARSE_SUCCESS ∨ (memDouble nptr).2.2 = PARSE_EEND then
    if (memDouble nptr).1 * pow10 (memScale nptr magnitude).1 < 0 ∨
        (memDouble nptr).1 * pow10 (memScale nptr magnitude).1 > SIZE_MAX then
      ⟨bytes0, (memScale nptr magnitude).2, PARSE_ERANGE⟩
    else
      if (((memDouble nptr).1 * pow10 (memScale nptr magnitude).1).floor).toNat < mn then
        ⟨(((memDouble nptr).1 * pow10 (memScale nptr magnitude).1).floor).toNat,
          (memScale nptr magnitude).2, PARSE_EMIN⟩
      else if (((memDouble nptr).1 * pow10 (memScale nptr magnitude).1).floor).toNat > mx then
        ⟨(((memDouble nptr).1 * pow10 (memScale nptr magnitude).1).floor).toNat,
          (memScale nptr magnitude).2, PARSE_EMAX⟩
      else if (memScale nptr magnitude).2 = [] then
        ⟨(((memDouble nptr).1 * pow10 (memScale nptr magnitude).1).floor).toNat,
          (memScale nptr magnitude).2, PARSE_SUCCESS⟩
      else
        ⟨(((memDouble nptr).1 * pow10 (memScale nptr magnitude).1).floor).toNat,
          (memScale nptr magnitude).2, PARSE_EEND⟩
  else ⟨bytes0, (memDouble nptr).2.1, (memDouble nptr).2.2⟩

/-- Digit value of a character for bases up to 36 (`0-9`, `a-z`, `A-Z`); 99 marks a
non-digit. -/
def digitValAny (c : Char) : ℕ :=
  if '0' ≤ c ∧ c ≤ '9' then c.toNat - '0'.toNat
  else if 'a' ≤ c ∧ c ≤ 'z' then c.toNat - 'a'.toNat + 10
  else if 'A' ≤ c ∧ c ≤ 'Z' then c.toNat - 'A'.toNat + 10
  else 99

/-- Split a maximal run of base-`b` digits off the front of the input, as their values. -/
def takeBaseDigits (b : ℕ) : List Char → List ℕ × List Char
  | [] => (([] : List ℕ), ([] : List Char))
  | c :: rest =>
    if digitValAny c < b then
      (digitValAny c :: (takeBaseDigits b rest).1, (takeBaseDigits b rest).2)
    else (([] : List ℕ), c :: rest)

/-- Head-of-input test for a hexadecimal digit (used for the longest-match rule of
the `0x` prefix: the prefix is consumed only when a hex digit follows). -/
def hexDigitFollows : List Char → Bool
  | [] => false
  | c :: _ => digitValAny c < 16

/-- Modelled from the spec: the primitive string-to-unsigned conversion (libc
`strtoul` / `strtoumax`, an external collaborator per spec section 6) for a type
whose maximum value is `M`.  Skips whitespace, consumes an optional sign, resolves
base 0 (auto-detect octal / hex / decimal) and the optional `0x` prefix of base 16,
then accumulates base digits.  Returns the value (a `-` sign wraps the magnitude
modulo `M + 1`), the first unconsumed position (the start when no digits were
consumed), and an overflow flag modelling `errno == ERANGE` (magnitude above `M`,
in which case the value is clamped to `M`). -/
def strtoulGen (M : ℕ) (s0 : List Char) (base : ℕ) : ℕ × List Char × Bool :=
  let s1 := skipSpace s0
  let neg : Bool :=
    match s1 with
    | '-' :: _ => true
    | _ => false
  let s2 : List Char :=
    match s1 with
    | '-' :: r => r
    | '+' :: r => r
    | _ => s1
  let bs : ℕ × List Char :=
    if base = 16 ∨ base = 0 then
      match s2 with
      | '0' :: c :: r =>
        if (c = 'x' ∨ c = 'X') ∧ hexDigitFollows r = true then (16, r)
        else if base = 0 then (8, s2) else (16, s2)
      | '0' :: [] => if base = 0 then (8, s2) else (16, s2)
      | _ => if base = 0 then (10, s2) else (16, s2)
    else (base, s2)
  let ds := takeBaseDigits bs.1 bs.2
  if ds.1 = [] then (0, s0, false)
  else
    let v := ds.1.foldl (fun a d => a * bs.1 + d) 0
    if v > M then (M, ds.2, true)
    else ((if neg then (M + 1 - v) % (M + 1) else v), ds.2, false)

/-- Function `stringToULong` of parser.c: validate the radix, record the first
non-whitespace character as the sign witness, convert via `strtoul`, then apply the
error ladder — no conversion, overflow, caller bounds, and the unsigned-target rule
that a `-` sign with a nonzero converted value reports `PARSE_EMIN`.  (The
`errno == EINVAL` disjunct is dead after the radix check and not modelled; on the
`PARSE_EBASE` path the C `*x` is unwritten and the model reports 0.) -/
def stringToULong (nptr : List Char) (mn mx : ℕ) (base : ℤ) : ℕ × List Char × ParseErr :=
  if (base < 2 ∧ base ≠ 0) ∨ base > 36 then (0, nptr, PARSE_EBASE)
  else
    if (strtoulGen ULONG_MAX (skipSpace nptr) base.toNat).2.1 = skipSpace nptr then
      ((strtoulGen ULONG_MAX (skipSpace nptr) base.toNat).1,
        (strtoulGen ULONG_MAX (skipSpace nptr) base.toNat).2.1, PARSE_EERR)
    else if (strtoulGen ULONG_MAX (skipSpace nptr) base.toNat).2.2 = true then
      ((strtoulGen ULONG_MAX (skipSpace nptr) base.toNat).1,
        (strtoulGen ULONG_MAX (skipSpace nptr) base.toNat).2.1, PARSE_ERANGE)
    else if (strtoulGen ULONG_MAX (skipSpace nptr) base.toNat).1 < mn then
      ((strtoulGen ULONG_MAX (skipSpace nptr) base.toNat).1,
        (strtoulGen ULONG_MAX (skipSpace nptr) base.toNat).2.1, PARSE_EMIN)
    else if (strtoulGen ULONG_MAX (skipSpace nptr) base.toNat).1 > mx then
      ((strtoulGen ULONG_MAX (skipSpace nptr) base.toNat).1,
        (strtoulGen ULONG_MAX (skipSpace nptr) base.toNat).2.1, PARSE_EMAX)
    else if (skipSpace nptr).head? = some '-' ∧
        (strtoulGen ULONG_MAX (skipSpace nptr) base.toNat).1 ≠ 0 then
      ((strtoulGen ULONG_MAX (skipSpace nptr) base.toNat).1,
        (strtoulGen ULONG_MAX (skipSpace nptr) base.toNat).2.1, PARSE_EMIN)
    else if (strtoulGen ULONG_MAX (skipSpace nptr) base.toNat).2.1 = [] then
      ((strtoulGen ULONG_MAX (skipSpace nptr) base.toNat).1,
        (strtoulGen ULONG_MAX (skipSpace nptr) base.toNat).2.1, PARSE_SUCCESS)
    else
      ((strtoulGen ULONG_MAX (skipSpace nptr) base.toNat).1,
        (strtoulGen ULONG_MAX (skipSpace nptr) base.toNat).2.1, PARSE_EEND)

/-- Function `stringToUIntMax` of parser.c: textually identical to `stringToULong`
with `strtoumax` / `uintmax_t` in place of `strtoul` / `unsigned long`. -/
def stringToUIntMax (nptr : List Char) (mn mx : ℕ) (base : ℤ) : ℕ × List Char × ParseErr :=
  if (base < 2 ∧ base ≠ 0) ∨ base > 36 then (0, nptr, PARSE_EBASE)
  else
    if (strtoulGen UINTMAX_MAX (skipSpace nptr) base.toNat).2.1 = skipSpace nptr then
      ((strtoulGen UINTMAX_MAX (skipSpace nptr) base.toNat).1,
        (strtoulGen UINTMAX_MAX (skipSpace nptr) base.toNat).2.1, PARSE_EERR)
    else if (strtoulGen UINTMAX_MAX (skipSpace nptr) base.toNat).2.2 = true then
      ((strtoulGen UINTMAX_MAX (skipSpace nptr) base.toNat).1,
        (strtoulGen UINTMAX_MAX (skipSpace nptr) base.toNat).2.1, PARSE_ERANGE)
    else if (strtoulGen UINTMAX_MAX (skipSpace nptr) base.toNat).1 < mn then
      ((strtoulGen UINTMAX_MAX (skipSpace nptr) base.toNat).1,
        (strtoulGen UINTMAX_MAX (skipSpace nptr) base.toNat).2.1, PARSE_EMIN)
    else if (strtoulGen UINTMAX_MAX (skipSpace nptr) base.toNat).1 > mx then
      ((strtoulGen UINTMAX_MAX (skipSpace nptr) base.toNat).1,
        (strtoulGen UINTMAX_MAX (skipSpace nptr) base.toNat).2.1, PARSE_EMAX)
    else if (skipSpace nptr).head? = some '-' ∧
        (strtoulGen UINTMAX_MAX (skipSpace nptr) base.toNat).1 ≠ 0 then
      ((strtoulGen UINTMAX_MAX (skipSpace nptr) base.toNat).1,
        (strtoulGen UINTMAX_MAX (skipSpace nptr) base.toNat).2.1, PARSE_EMIN)
    else if (strtoulGen UINTMAX_MAX (skipSpace nptr) base.toNat).2.1 = [] then
      ((strtoulGen UINTMAX_MAX (skipSpace nptr) base.toNat).1,
        (strtoulGen UINTMAX_MAX (skipSpace nptr) base.toNat).2.1, PARSE_SUCCESS)
    else
      ((strtoulGen UINTMAX_MAX (skipSpace nptr) base.toNat).1,
        (strtoulGen UINTMAX_MAX (skipSpace nptr) base.toNat).2.1, PARSE_EEND)

/-!  Theorems.  The `Rat` arithmetic operations are restored to their definitional
transparency so that concrete parser runs evaluate inside `decide`. -/

attribute [local semireducible] Rat.mul Rat.add Rat.sub Rat.inv

set_option exponentiation.threshold 1200

set_option maxRecDepth 8000

/-- Writing one lane of the accumulator never perturbs the other lane: whatever path
`stringToComplexPart` takes, a `COMPLEX_REAL` outcome preserves the imaginary lane
and a `COMPLEX_IMAGINARY` outcome preserves the real lane. -/
theorem part_frame (z : ℚ × ℚ) (s : List Char) (mn mx : ℚ × ℚ) :
    ((stringToComplexPart z s mn mx).ty = COMPLEX_REAL →
      (stringToComplexPart z s mn mx).z.2 = z.2) ∧
    ((stringToComplexPart z s mn mx).ty = COMPLEX_IMAGINARY →
      (stringToComplexPart z s mn mx).z.1 = z.1) := by
  unfold stringToComplexPart
  repeat' split
  all_goals simp_all

/-- A `stringToDouble` outcome of `PARSE_EEND` means the cursor stopped before the
end of the input. -/
theorem stringToDouble_eend_ne_nil (n : List Char) (a b : ℚ)
    (h : (stringToDouble n a b).2.2 = PARSE_EEND) : (stringToDouble n a b).2.1 ≠ [] := by
  revert h
  unfold stringToDouble
  repeat' split
  all_goals simp_all

/-- C1 (amended): for every input whose numeric subject sequence begins with a
leading `-` and converts to a nonzero magnitude, `stringToULong` and
`stringToUIntMax` fail with `PARSE_EMIN` *provided* the conversion does not
overflow and the (wrapped) converted value does not exceed `max`; otherwise the
earlier `PARSE_ERANGE` / `PARSE_EMAX` checks fire first, as the counterexample
shows. -/
theorem C1_theorem (s : List Char) (mn mx : ℕ) (base : ℤ)
    (hbase : ¬((base < 2 ∧ base ≠ 0) ∨ base > 36))
    (hsgn : (skipSpace s).head? = some '-')
    (hconv : (strtoulGen ULONG_MAX (skipSpace s) base.toNat).2.1 ≠ skipSpace s)
    (hof : (strtoulGen ULONG_MAX (skipSpace s) base.toNat).2.2 = false)
    (hnz : (strtoulGen ULONG_MAX (skipSpace s) base.toNat).1 ≠ 0)
    (hmx : (strtoulGen ULONG_MAX (skipSpace s) base.toNat).1 ≤ mx) :
    (stringToULong s mn mx base).2.2 = PARSE_EMIN ∧
    (stringToUIntMax s mn mx base).2.2 = PARSE_EMIN := by
  have hu : UINTMAX_MAX = ULONG_MAX := rfl
  constructor
  · unfold stringToULong
    rw [if_neg hbase, if_neg hconv, if_neg (by simp [hof])]
    by_cases hlt : (strtoulGen ULONG_MAX (skipSpace s) base.toNat).1 < mn
    · rw [if_pos hlt]
    · rw [if_neg hlt, if_neg (by omega), if_pos ⟨hsgn, hnz⟩]
  · unfold stringToUIntMax
    rw [hu, if_neg hbase, if_neg hconv, if_neg (by simp [hof])]
    by_cases hlt : (strtoulGen ULONG_MAX (skipSpace s) base.toNat).1 < mn
    · rw [if_pos hlt]
    · rw [if_neg hlt, if_neg (by omega), if_pos ⟨hsgn, hnz⟩]

/-- C1 witness: `"-5"` with the full `unsigned long` range is rejected `PARSE_EMIN`
by both conversion wrappers. -/
theorem C1_witness :
    (stringToULong ['-', '5'] 0 (2 ^ 64 - 1) 10).2.2 = PARSE_EMIN ∧
    (stringToUIntMax ['-', '5'] 0 (2 ^ 64 - 1) 10).2.2 = PARSE_EMIN :=
  C1_theorem ['-', '5'] 0 (2 ^ 64 - 1) 10 (by decide) (by decide) (by decide)
    (by decide) (by decide) (by decide)

/-- C1 counterexample: the claim as stated fails — `"-5"` with `min = 0`, `max = 10`,
base 10 converts to a negative nonzero magnitude, yet both functions report
`PARSE_EMAX` (the wrapped value `2^64 - 5` exceeds `max` before the sign check runs),
not `PARSE_EMIN`. -/
theorem C1_counterexample :
    (stringToULong ['-', '5'] 0 10 10).2.2 = PARSE_EMAX ∧
    (stringToUIntMax ['-', '5'] 0 10 10).2.2 = PARSE_EMAX ∧
    (stringToULong ['-', '5'] 0 10 10).2.2 ≠ PARSE_EMIN := by decide

/-- C2 (amended): `stringToComplex "3+4"` with bounds `CMPLX_MIN`/`CMPLX_MAX`
produces the value `(3, 0)` and returns `PARSE_EEND` (trailing data, cursor on
`"+4"`), treating the second real term as unconsumed trailing data rather than
merging it; the two-real-term form is never accepted as one complex literal. -/
theorem C2_theorem :
    stringToComplex ['3', '+', '4'] CMPLX_MIN CMPLX_MAX =
      ⟨(3, 0), ['+', '4'], PARSE_EEND⟩ := by decide

/-- C2 counterexample: the claim as stated fails — the return value on `"3+4"` is
`PARSE_EEND`, not `PARSE_SUCCESS`. -/
theorem C2_counterexample :
    (stringToComplex ['3', '+', '4'] CMPLX_MIN CMPLX_MAX).err = PARSE_EEND ∧
    (stringToComplex ['3', '+', '4'] CMPLX_MIN CMPLX_MAX).err ≠ PARSE_SUCCESS := by decide

/-- C3: whenever the first term parses with trailing data and — after an inter-term
operator — the second term parses (`PARSE_SUCCESS` or `PARSE_EEND`) with the same
kind as the first, `stringToComplex` rolls back: the result is exactly the first
term's value, the cursor is the checkpoint recorded just after the first term, the
code is `PARSE_EEND`, and the lane the first term did not write is zero. -/
theorem C3_theorem (s : List Char) (mn mx : ℚ × ℚ)
    (h1 : (cFirst s mn mx).err = PARSE_EEND)
    (hop : (cOper s mn mx).1 ≠ 0)
    (h2 : (cSecond s mn mx).err = PARSE_SUCCESS ∨ (cSecond s mn mx).err = PARSE_EEND)
    (hty : (cSecond s mn mx).ty = (cFirst s mn mx).ty) :
    stringToComplex s mn mx = ⟨(cFirst s mn mx).z, (cFirst s mn mx).endp, PARSE_EEND⟩ ∧
    ((cFirst s mn mx).ty = COMPLEX_REAL → (cFirst s mn mx).z.2 = 0) ∧
    ((cFirst s mn mx).ty = COMPLEX_IMAGINARY → (cFirst s mn mx).z.1 = 0) := by
  refine ⟨?_, ?_, ?_⟩
  · unfold stringToComplex
    rw [if_neg (by simp [h1]), if_neg (by simp [h1]), if_neg hop,
      if_neg (by rcases h2 with h | h <;> simp [h]), if_pos hty.symm]
  · exact (part_frame (0, 0) (skipSpace s) mn mx).1
  · exact (part_frame (0, 0) (skipSpace s) mn mx).2

/-- C3 witness: on `"3+4"` the duplicate-real-kind rollback fires. -/
theorem C3_witness :
    stringToComplex ['3', '+', '4'] CMPLX_MIN CMPLX_MAX =
      ⟨(cFirst ['3', '+', '4'] CMPLX_MIN CMPLX_MAX).z,
        (cFirst ['3', '+', '4'] CMPLX_MIN CMPLX_MAX).endp, PARSE_EEND⟩ ∧
    ((cFirst ['3', '+', '4'] CMPLX_MIN CMPLX_MAX).ty = COMPLEX_REAL →
      (cFirst ['3', '+', '4'] CMPLX_MIN CMPLX_MAX).z.2 = 0) ∧
    ((cFirst ['3', '+', '4'] CMPLX_MIN CMPLX_MAX).ty = COMPLEX_IMAGINARY →
      (cFirst ['3', '+', '4'] CMPLX_MIN CMPLX_MAX).z.1 = 0) :=
  C3_theorem ['3', '+', '4'] CMPLX_MIN CMPLX_MAX (by decide) (by decide)
    (Or.inl (by decide)) (by decide)

/-- C4 (amended): whenever the parsed signed coefficient lies below the
corresponding lane of `min` or above the corresponding lane of `max`,
`stringToComplexPart` returns the single folded outcome `PARSE_ERANGE` (not the
distinct `PARSE_EMIN` / `PARSE_EMAX` the claim states, as the counterexample
shows). -/
theorem C4_theorem (z : ℚ × ℚ) (s : List Char) (mn mx : ℚ × ℚ)
    (hs : (partSign2 s).1 = 0)
    (hd : (partDouble s).2.2 = PARSE_SUCCESS ∨ (partDouble s).2.2 = PARSE_EEND ∨
      ((partDouble s).2.2 = PARSE_EERR ∧ headIsImagUnit (partDouble s).2.1 = true))
    (hout : ((partKind s).1 = COMPLEX_REAL ∧ (partCoeff s < mn.1 ∨ partCoeff s > mx.1)) ∨
      ((partKind s).1 = COMPLEX_IMAGINARY ∧ (partCoeff s < mn.2 ∨ partCoeff s > mx.2))) :
    (stringToComplexPart z s mn mx).err = PARSE_ERANGE := by
  unfold stringToComplexPart
  rw [if_neg (by simp [hs]),
    if_neg (by
      rcases hd with h | h | ⟨h, hh⟩
      · simp [h]
      · simp [h]
      · simp [h, hh]),
    if_neg (by
      rcases hd with h | h | ⟨h, hh⟩
      · simp [h]
      · simp [h]
      · simp [h])]
  rcases hout with ⟨hr, hb⟩ | ⟨hr, hb⟩ <;>
    rcases hpk : partKind s with ⟨ty, e4⟩ <;> rw [hpk] at hr <;>
    simp only at hr <;> subst hr <;> simp [hb]

/-- C4 witness: `"3"` against real-lane bounds `[5, 10]` is out of bounds below and
reports `PARSE_ERANGE`. -/
theorem C4_witness :
    (stringToComplexPart (0, 0) ['3'] (5, 0) (10, 10)).err = PARSE_ERANGE :=
  C4_theorem (0, 0) ['3'] (5, 0) (10, 10) (by decide) (Or.inl (by decide))
    (Or.inl ⟨by decide, Or.inl (by decide)⟩)

/-- C4 counterexample: the claim as stated fails — a coefficient below the real lane
of `min` yields `PARSE_ERANGE`, not `PARSE_EMIN`. -/
theorem C4_counterexample :
    (stringToComplexPart (0, 0) ['3'] (5, 0) (10, 10)).err = PARSE_ERANGE ∧
    (stringToComplexPart (0, 0) ['3'] (5, 0) (10, 10)).err ≠ PARSE_EMIN := by decide

/-- C5: single-term complex literals succeed with the other lane zero:
`"5"` gives `(5, 0)`, `"5i"` gives `(0, 5)`, `"-3.5i"` gives `(0, -3.5)`, each
`PARSE_SUCCESS` under bounds `CMPLX_MIN`/`CMPLX_MAX`. -/
theorem C5_theorem :
    stringToComplex ['5'] CMPLX_MIN CMPLX_MAX = ⟨(5, 0), [], PARSE_SUCCESS⟩ ∧
    stringToComplex ['5', 'i'] CMPLX_MIN CMPLX_MAX = ⟨(0, 5), [], PARSE_SUCCESS⟩ ∧
    stringToComplex ['-', '3', '.', '5', 'i'] CMPLX_MIN CMPLX_MAX =
      ⟨(0, -(7 / 2)), [], PARSE_SUCCESS⟩ := by decide

/-- C6: `stringToMemory "2GB"` with `min = 0`, `max = SIZE_MAX`, default magnitude 0
returns `PARSE_SUCCESS` with exactly `2000000000 = 2 * 10^9` bytes — the `G` suffix
scales by the decimal power `10^9`, not a binary power of two. -/
theorem C6_theorem :
    stringToMemory 0 ['2', 'G', 'B'] 0 (2 ^ 64 - 1) 0 =
      ⟨2000000000, [], PARSE_SUCCESS⟩ ∧ (2000000000 : ℕ) = 2 * 10 ^ 9 := by decide

/-- C7: any input carrying two consecutive sign tokens before the coefficient makes
`stringToComplexPart` fail with `PARSE_EFORM`, for every accumulator and bounds. -/
theorem C7_theorem (z : ℚ × ℚ) (s : List Char) (mn mx : ℚ × ℚ)
    (h1 : (partSign s).1 ≠ 0) (h2 : (partSign2 s).1 ≠ 0) :
    (stringToComplexPart z s mn mx).err = PARSE_EFORM := by
  unfold stringToComplexPart
  rw [if_pos h2]

/-- C7 witness: `"+-3"` is rejected `PARSE_EFORM`. -/
theorem C7_witness :
    (stringToComplexPart (0, 0) ['+', '-', '3'] CMPLX_MIN CMPLX_MAX).err = PARSE_EFORM :=
  C7_theorem (0, 0) ['+', '-', '3'] CMPLX_MIN CMPLX_MAX (by decide) (by decide)

/-- C8: `stringToComplexPart` writes at most one lane: committing a `COMPLEX_REAL`
term leaves the imaginary lane's prior value unchanged, and committing a
`COMPLEX_IMAGINARY` term leaves the real lane's prior value unchanged — for every
starting accumulator, input, and bound pair. -/
theorem C8_theorem (z : ℚ × ℚ) (s : List Char) (mn mx : ℚ × ℚ) :
    ((stringToComplexPart z s mn mx).ty = COMPLEX_REAL →
      (stringToComplexPart z s mn mx).z.2 = z.2) ∧
    ((stringToComplexPart z s mn mx).ty = COMPLEX_IMAGINARY →
      (stringToComplexPart z s mn mx).z.1 = z.1) :=
  part_frame z s mn mx

/-- C8 witness: parsing the real literal `"5"` into accumulator `(7, 9)` leaves the
imaginary lane at `9`. -/
theorem C8_witness :
    (stringToComplexPart (7, 9) ['5'] CMPLX_MIN CMPLX_MAX).z.2 = 9 :=
  (C8_theorem (7, 9) ['5'] CMPLX_MIN CMPLX_MAX).1 (by decide)

/-- C9: `stringToComplexPart` is atomic on error — when the returned code is neither
`PARSE_SUCCESS` nor `PARSE_EEND`, the accumulator is exactly the value it had on
entry. -/
theorem C9_theorem (z : ℚ × ℚ) (s : List Char) (mn mx : ℚ × ℚ)
    (h1 : (stringToComplexPart z s mn mx).err ≠ PARSE_SUCCESS)
    (h2 : (stringToComplexPart z s mn mx).err ≠ PARSE_EEND) :
    (stringToComplexPart z s mn mx).z = z := by
  revert h1 h2
  unfold stringToComplexPart
  repeat' split
  all_goals intro h1 h2
  all_goals simp_all

/-- C9 witness: the `PARSE_EFORM` failure on `"+-3"` leaves the accumulator `(1, 2)`
untouched. -/
theorem C9_witness :
    (stringToComplexPart (1, 2) ['+', '-', '3'] CMPLX_MIN CMPLX_MAX).z = (1, 2) :=
  C9_theorem (1, 2) ['+', '-', '3'] CMPLX_MIN CMPLX_MAX (by decide) (by decide)

/-- C10: when the double parse of `stringToMemory` ends with trailing data and the
remainder is not a valid memory-unit suffix, the outcome is never a hard format
error (only `PARSE_ERANGE` / `PARSE_EMIN` / `PARSE_EMAX` / `PARSE_EEND`), and —
bounds permitting — the function restores the cursor to the first character after
the double, scales by `10^magnitude`, and returns `PARSE_EEND`. -/
theorem C10_theorem (bytes0 : ℕ) (s : List Char) (mn mx : ℕ) (mag : ℤ)
    (hd : (memDouble s).2.2 = PARSE_EEND)
    (hu : (memUnit s).1 < 0) :
    ((stringToMemory bytes0 s mn mx mag).err = PARSE_ERANGE ∨
      (stringToMemory bytes0 s mn mx mag).err = PARSE_EMIN ∨
      (stringToMemory bytes0 s mn mx mag).err = PARSE_EMAX ∨
      (stringToMemory bytes0 s mn mx mag).err = PARSE_EEND) ∧
    (¬((memDouble s).1 * pow10 mag < 0 ∨ (memDouble s).1 * pow10 mag > SIZE_MAX) →
      mn ≤ (((memDouble s).1 * pow10 mag).floor).toNat →
      (((memDouble s).1 * pow10 mag).floor).toNat ≤ mx →
      stringToMemory bytes0 s mn mx mag =
        ⟨(((memDouble s).1 * pow10 mag).floor).toNat, (memDouble s).2.1, PARSE_EEND⟩) := by
  have hscale : memScale s mag = (mag, (memDouble s).2.1) := by
    unfold memScale
    rw [if_neg (by simp [hd]), if_pos hu]
  have hne : (memDouble s).2.1 ≠ [] :=
    stringToDouble_eend_ne_nil (skipSpace s) 0 DBL_MAX hd
  constructor
  · unfold stringToMemory
    rw [if_pos (Or.inr hd)]
    simp only [hscale]
    split_ifs <;> simp_all
  · intro hr hmn hmx
    unfold stringToMemory
    rw [if_pos (Or.inr hd)]
    simp only [hscale]
    rw [if_neg hr, if_neg (by omega), if_neg (by omega), if_neg hne]

/-- C10 witness: `"2XB"` with default magnitude 0 parses the `2`, leaves `"XB"`
unconsumed, and reports `PARSE_EEND` with 2 bytes. -/
theorem C10_witness :
    stringToMemory 0 ['2', 'X', 'B'] 0 100 0 = ⟨2, ['X', 'B'], PARSE_EEND⟩ := by
  have h := (C10_theorem 0 ['2', 'X', 'B'] 0 100 0 (by decide) (by decide)).2
    (by decide) (by decide) (by decide)
  simpa using h

end Percy
